import Mathlib

/-!
Verification of the local paper storage / status-transition subsystem and the
PDF-conversion result cache of the arxiv-reader repository, as a shallow
embedding in Lean 4.

The embedding mirrors `src/source/services/local_papers.ts`,
`src/source/services/docling.ts` and
`src/source/utils/extractPartsFromResult.ts`:

* a JavaScript object `Record<string, T>` (the parsed `metadata.json`) is
  modelled as an association list `List (String × T)` with unique keys in
  reachable states; `assocGet`/`assocSet`/`assocDelete` mirror property read,
  property assignment (in-place update of an existing key, append of a new
  key, matching JS insertion-order semantics) and the `delete` operator;
* the file system visible to the paper repository is the two metadata
  mappings plus, per collection directory, a mapping from paper id to the
  bytes of `<id>.pdf` (bytes abstracted as `Nat`); the node `fs` primitives
  that the code calls return `Except FsError`, and the only error the model
  can produce is `FsError.enoent` ("no such file"), which is exactly the
  error class the source catches and swallows;
* the docling conversion cache (`PDF_CACHE`, `cache_metadata.json`, the
  `.docling_cache` directory) is a `CacheState`: the in-memory entry list
  (most-recently-used first), the persisted index file contents, and the set
  of output-artifact paths that exist on disk;
* the data-URI image extractor is translated from the JavaScript regex loop
  over `/!\[.*?\]\((data:image\/[^)]+)\)/g` as an explicit leftmost-match,
  lazy-alt-text scanner over the character list.
-/

namespace ArxivReader

/-! ## Association-list model of a JavaScript object keyed by strings -/

/-- Property read `obj[k]` on a JS object modelled as an association list. -/
def assocGet {α : Type} : List (String × α) → String → Option α
  | [], _ => none
  | (k, v) :: rest, id => if k = id then some v else assocGet rest id

/-- Property write `obj[k] = v`: replaces the value of an existing key in
place, otherwise appends the new key at the end (JS insertion order). -/
def assocSet {α : Type} : List (String × α) → String → α → List (String × α)
  | [], id, v => [(id, v)]
  | (k, w) :: rest, id, v =>
      if k = id then (k, v) :: rest else (k, w) :: assocSet rest id v

/-- Operator `delete obj[k]`: removes every pair with the given key (reachable states
have unique keys, so at most one pair is removed). -/
def assocDelete {α : Type} : List (String × α) → String → List (String × α)
  | [], _ => []
  | (k, w) :: rest, id =>
      if k = id then assocDelete rest id else (k, w) :: assocDelete rest id

/-! ## Data model (`local_papers.ts`) -/

/-- Structure `LocalPaperMetadata` from `local_papers.ts`: the arXiv fields (dates kept
as their on-disk ISO strings) plus the local fields. -/
structure LocalPaperMetadata where
  title : String
  abstract : String
  authors : List String
  categories : List String
  primaryCategory : String
  pdfUrl : String
  doi : Option String
  journalRef : Option String
  comment : Option String
  published : String
  updated : String
  downloadedAt : Nat
  fileSize : Nat
  starred : Bool
  archived : Bool
  tags : List String
deriving DecidableEq, Repr

/-- The parsed contents of a collection's `metadata.json`. -/
abbrev PapersMetadataFile : Type := List (String × LocalPaperMetadata)

/-- Type `PaperStatus` from `local_papers.ts`. -/
inductive PaperStatus where
  | unread
  | read
deriving DecidableEq, Repr

/-- Modelled from the spec: `os.homedir()` is a value of the host environment,
fixed here as a placeholder; only its role as an opaque path component
matters. -/
def os_homedir : String := "HOME"

/-- Constant `application_base_directory` from `constants/index.ts` (non-win32 branch;
`path.join` modelled as joining on "/"). -/
def application_base_directory : String := os_homedir ++ "/" ++ ".arxiv-reader"

/-- Constant `read_paper_directory` from `constants/index.ts`. -/
def read_paper_directory : String :=
  application_base_directory ++ "/" ++ "readPapers"

/-- Constant `unread_paper_directory` from `constants/index.ts`. -/
def unread_paper_directory : String :=
  application_base_directory ++ "/" ++ "unreadPapers"

/-- Function `getPaperFilePath` from `local_papers.ts`. -/
def getPaperFilePath (paperId : String) (status : PaperStatus) : String :=
  (match status with
   | .unread => unread_paper_directory
   | .read => read_paper_directory) ++ "/" ++ paperId ++ ".pdf"

/-- The fields of `LocalPaper` that `convertMetadataToLocalPaper` produces: the
derived absolute file path together with the metadata record (date re-parsing
is a representation change and is not modelled). -/
structure LocalPaper where
  id : String
  filePath : String
  meta : LocalPaperMetadata
deriving DecidableEq, Repr

/-- Function `convertMetadataToLocalPaper` from `local_papers.ts`. -/
def convertMetadataToLocalPaper (paperId : String) (metadata : LocalPaperMetadata)
    (status : PaperStatus) : LocalPaper :=
  { id := paperId
    filePath := getPaperFilePath paperId status
    meta := metadata }

/-! ## File-system model for the paper repository -/

/-- The one file-system error class the model produces: "no such file or
directory".  The source code's `catch` blocks test `e.code !== 'ENOENT'` and
rethrow anything else; other OS error classes (permissions, I/O) are outside
the model. -/
inductive FsError where
  | enoent
deriving DecidableEq, Repr

/-- Contents of one collection directory's PDF files: paper id ↦ bytes of
`<id>.pdf` (bytes abstracted as a `Nat`). -/
abbrev PdfDir : Type := List (String × Nat)

/-- The on-disk state the paper repository reads and writes: the two parsed
metadata mappings and the two PDF directories. -/
structure St where
  unreadMeta : PapersMetadataFile
  readMeta : PapersMetadataFile
  unreadPdf : PdfDir
  readPdf : PdfDir
deriving DecidableEq, Repr

/-- Primitive `fs.promises.readFile` on a PDF directory: returns the bytes or throws
ENOENT. -/
def fsReadFile (dir : PdfDir) (paperId : String) : Except FsError Nat :=
  match assocGet dir paperId with
  | some data => .ok data
  | none => .error .enoent

/-- Primitive `fs.promises.unlink` on a PDF directory: removes the file or throws
ENOENT. -/
def fsUnlink (dir : PdfDir) (paperId : String) : Except FsError PdfDir :=
  match assocGet dir paperId with
  | some _ => .ok (assocDelete dir paperId)
  | none => .error .enoent

/-- The `try { unlink } catch` pattern of `deleteLocalPaper`: an ENOENT from
the unlink (file already gone) is tolerated, leaving the directory as it
was. -/
def unlinkIgnoreMissing (dir : PdfDir) (paperId : String) : PdfDir :=
  match fsUnlink dir paperId with
  | .ok d => d
  | .error .enoent => dir

/-! ## Metadata store read path (`readMetadataFile`) -/

/-- The raw on-disk condition of a collection's `metadata.json`, classifying
the outcomes of `fs.promises.readFile` followed by `JSON.parse`: the file may
be missing, unreadable, syntactically invalid JSON, or valid with some parsed
mapping. -/
inductive RawMetaFile where
  | missing
  | unreadable
  | invalidJson
  | valid (mapping : PapersMetadataFile)

/-- The error produced inside `readMetadataFile`'s `try` block. -/
inductive MetaReadError where
  | readFailed
  | parseFailed
deriving DecidableEq, Repr

/-- The `try` block of `readMetadataFile`: `fs.promises.readFile` (throws on a
missing or unreadable file) followed by `JSON.parse` (throws on invalid
JSON). -/
def readAndParseMetadata : RawMetaFile → Except MetaReadError PapersMetadataFile
  | .missing => .error .readFailed
  | .unreadable => .error .readFailed
  | .invalidJson => .error .parseFailed
  | .valid mapping => .ok mapping

/-- Function `readMetadataFile` from `local_papers.ts`: the `try`/`catch` that returns
an empty mapping on any read or parse error. -/
def readMetadataFile (raw : RawMetaFile) : PapersMetadataFile :=
  match readAndParseMetadata raw with
  | .ok mapping => mapping
  | .error _ => []

/-! ## Paper repository operations (`local_papers.ts`) -/

/-- Function `getLocalPaper` from `local_papers.ts`: scans unread then read,
first-match-wins. -/
def getLocalPaper (id : String) (s : St) : Option LocalPaper :=
  match assocGet s.unreadMeta id with
  | some m => some (convertMetadataToLocalPaper id m .unread)
  | none =>
    match assocGet s.readMeta id with
    | some m => some (convertMetadataToLocalPaper id m .read)
    | none => none

/-- The `try`/`catch`-wrapped PDF move shared by both transition directions:
read the source PDF, write it to the destination, unlink the source; an
ENOENT from any step is swallowed, leaving whatever the partial execution
produced.  In the model the only fallible step is the initial read (a write
cannot fail and the unlink of a file just read cannot miss), so a swallowed
ENOENT leaves both directories unchanged. -/
def movePdf (src dst : PdfDir) (id : String) : PdfDir × PdfDir :=
  match fsReadFile src id with
  | .error .enoent => (src, dst)
  | .ok fileData =>
    let dst1 := assocSet dst id fileData
    match fsUnlink src id with
    | .error .enoent => (src, dst1)
    | .ok src1 => (src1, dst1)

/-- Function `markPaperAsRead` from `local_papers.ts`: no-op if the id is not in the
unread mapping; otherwise move the PDF (tolerating a missing source file),
remove the id from the unread mapping and insert it into the read mapping. -/
def markPaperAsRead (id : String) (s : St) : Except FsError St :=
  match assocGet s.unreadMeta id with
  | none => .ok s
  | some paperMeta =>
    let (unreadPdf1, readPdf1) := movePdf s.unreadPdf s.readPdf id
    .ok { unreadMeta := assocDelete s.unreadMeta id
          readMeta := assocSet s.readMeta id paperMeta
          unreadPdf := unreadPdf1
          readPdf := readPdf1 }

/-- Function `markPaperAsUnread` from `local_papers.ts`: the mirror image of
`markPaperAsRead`. -/
def markPaperAsUnread (id : String) (s : St) : Except FsError St :=
  match assocGet s.readMeta id with
  | none => .ok s
  | some paperMeta =>
    let (readPdf1, unreadPdf1) := movePdf s.readPdf s.unreadPdf id
    .ok { unreadMeta := assocSet s.unreadMeta id paperMeta
          readMeta := assocDelete s.readMeta id
          unreadPdf := unreadPdf1
          readPdf := readPdf1 }

/-- Function `deleteLocalPaper` from `local_papers.ts`: find the collection holding the
id (unread scanned first), best-effort unlink its PDF (ENOENT tolerated),
remove the metadata entry; silent no-op when the id is in neither mapping. -/
def deleteLocalPaper (id : String) (s : St) : Except FsError St :=
  match assocGet s.unreadMeta id with
  | some _ =>
    .ok { s with unreadMeta := assocDelete s.unreadMeta id
                 unreadPdf := unlinkIgnoreMissing s.unreadPdf id }
  | none =>
    match assocGet s.readMeta id with
    | some _ =>
      .ok { s with readMeta := assocDelete s.readMeta id
                   readPdf := unlinkIgnoreMissing s.readPdf id }
    | none => .ok s

/-- Function `updatePaperMetadata` from `local_papers.ts`: scan unread then read for the
id, apply the update function where found and persist only that collection;
silent no-op when the id is in neither mapping. -/
def updatePaperMetadata (id : String)
    (updateFn : LocalPaperMetadata → LocalPaperMetadata) (s : St) : St :=
  match assocGet s.unreadMeta id with
  | some m => { s with unreadMeta := assocSet s.unreadMeta id (updateFn m) }
  | none =>
    match assocGet s.readMeta id with
    | some m => { s with readMeta := assocSet s.readMeta id (updateFn m) }
    | none => s

/-- Function `setPaperStarred` from `local_papers.ts`. -/
def setPaperStarred (id : String) (starred : Bool) (s : St) : St :=
  updatePaperMetadata id (fun meta => { meta with starred := starred }) s

/-- Function `setPaperArchived` from `local_papers.ts`. -/
def setPaperArchived (id : String) (archived : Bool) (s : St) : St :=
  updatePaperMetadata id (fun meta => { meta with archived := archived }) s

/-- Expression `Array.from(new Set(xs))` with an extra `add(tag)`: JS `Set` keeps
first-insertion order and drops later duplicates. -/
def jsSetAdd (tags : List String) (tag : String) : List String :=
  let dedup := tags.foldl (fun acc t => if acc.contains t then acc else acc ++ [t]) []
  if dedup.contains tag then dedup else dedup ++ [tag]

/-- Function `addPaperTag` from `local_papers.ts`. -/
def addPaperTag (id : String) (tag : String) (s : St) : St :=
  updatePaperMetadata id (fun meta => { meta with tags := jsSetAdd meta.tags tag }) s

/-- Function `removePaperTag` from `local_papers.ts`. -/
def removePaperTag (id : String) (tag : String) (s : St) : St :=
  updatePaperMetadata id
    (fun meta => { meta with tags := meta.tags.filter (fun t => t ≠ tag) }) s

/-! ## Conversion cache (`docling.ts`) -/

/-- Structure `CacheEntry` from `docling.ts`. -/
structure CacheEntry where
  pdfPath : String
  outputPath : String
  timestamp : Nat
deriving DecidableEq, Repr

/-- The state the cache code touches: the in-memory entry list
(most-recently-used first), the contents of `cache_metadata.json`, and the
output-artifact paths that exist on disk. -/
structure CacheState where
  cache : List CacheEntry
  persisted : List CacheEntry
  disk : List String
deriving DecidableEq, Repr

/-- Constant `MAX_CACHE_SIZE` from `docling.ts`. -/
def MAX_CACHE_SIZE : Nat := 5

/-- Node's `path.normalize` is a host-environment function; the model takes
paths to already be in normal form, so it is the identity.  It is kept as a
named function because the source compares cache keys only through it. -/
def normalizePath (p : String) : String := p

/-- Expression `PDF_CACHE.findIndex(entry => path.normalize(entry.pdfPath) ===
normalizedPath)` together with the later `splice(cacheIndex, 1)`: returns the
entries before the first match, the matching entry, and the entries after
it. -/
def findSplit (pdfPath : String) :
    List CacheEntry → Option (List CacheEntry × CacheEntry × List CacheEntry)
  | [] => none
  | e :: rest =>
    if normalizePath e.pdfPath = normalizePath pdfPath then some ([], e, rest)
    else
      match findSplit pdfPath rest with
      | none => none
      | some (before, f, after) => some (e :: before, f, after)

/-- Outcome of the cache-consultation phase of `pdfToMarkdown`. -/
inductive LookupResult where
  | hit (outputPath : String)
  | miss
deriving DecidableEq, Repr

/-- The cache-consultation phase of `pdfToMarkdown` (docling.ts lines
100–137): find the entry whose normalized `pdfPath` matches; on a hit whose
output still exists, move the entry to the front with a refreshed timestamp
and persist; if the output no longer exists, drop the entry, persist, and
treat the lookup as a miss. -/
def cacheLookup (now : Nat) (pdfPath : String) (s : CacheState) :
    LookupResult × CacheState :=
  match findSplit pdfPath s.cache with
  | none => (.miss, s)
  | some (before, e, after) =>
    if s.disk.contains e.outputPath then
      let cache1 := { e with timestamp := now } :: (before ++ after)
      (.hit e.outputPath, { s with cache := cache1, persisted := cache1 })
    else
      let cache1 := before ++ after
      (.miss, { s with cache := cache1, persisted := cache1 })

/-- The insertion phase of `pdfToMarkdown` (docling.ts lines 184–204):
`unshift` the new entry; if the size now exceeds `MAX_CACHE_SIZE`, `pop` the
back entry and remove its output artifact from disk (`existsSync` guard, then
`rmSync`); finally persist. -/
def cacheInsert (entry : CacheEntry) (s : CacheState) : CacheState :=
  let cache1 := entry :: s.cache
  if MAX_CACHE_SIZE < cache1.length then
    let evicted := cache1.getLast (List.cons_ne_nil entry s.cache)
    let cache2 := cache1.dropLast
    let disk1 :=
      if s.disk.contains evicted.outputPath then
        s.disk.filter (fun q => q != evicted.outputPath)
      else s.disk
    { cache := cache2, persisted := cache2, disk := disk1 }
  else
    { s with cache := cache1, persisted := cache1 }

/-! ## Markdown part extraction (`extractPartsFromResult.ts`)

The source scans with the JavaScript regex
`/!\[.*?\]\((data:image\/[^)]+)\)/g` in an `exec` loop.  The translation
makes the regex semantics explicit: a match is `![`, then a lazy (shortest)
alt-text span of non-line-terminator characters, then `](`, then the captured
payload `data:image/` followed by one or more non-`)` characters, then `)`;
`exec` finds the leftmost such match at or after the current position. -/

/-- Type `ExtractedPart` from `extractPartsFromResult.ts`. -/
inductive ExtractedPart where
  | text (content : String)
  | image (data : String)
deriving DecidableEq, Repr

/-- The literal `data:image/` that both the capture group and the payload
must start with. -/
def dataUriStart : List Char := "data:image/".toList

/-- Characters the JavaScript `.` (without the `s` flag) does not match. -/
def isLineTerm (c : Char) : Bool :=
  c = '\n' || c = '\r' || c.toNat = 0x2028 || c.toNat = 0x2029

/-- Drop an expected literal from the front of the input, or fail. -/
def stripLit : List Char → List Char → Option (List Char)
  | [], rest => some rest
  | _ :: _, [] => none
  | c :: cs, d :: ds => if c = d then stripLit cs ds else none

/-- Split the input at the first `)` — the maximal span `[^)]*` matches,
followed by the remainder (which starts with `)` if one occurs). -/
def splitBody : List Char → List Char × List Char
  | [] => ([], [])
  | c :: cs =>
    if c = ')' then ([], c :: cs)
    else
      let (body, rest) := splitBody cs
      (c :: body, rest)

/-- Try to complete a match at the position where the lazy alt text would
end: `](` then `data:image/` then one or more non-`)` characters then `)`.
On success returns the captured data URI and the input after the closing
parenthesis. -/
def parseRef : List Char → Option (List Char × List Char)
  | ']' :: '(' :: rest =>
    match stripLit dataUriStart rest with
    | none => none
    | some r1 =>
      match splitBody r1 with
      | ([], _) => none
      | (b :: bs, rest2) =>
        match rest2 with
        | ')' :: r3 => some (dataUriStart ++ b :: bs, r3)
        | _ => none
  | _ => none

/-- The lazy `.*?`: starting right after `![`, try to complete the match with
an alt text of length 0, 1, 2, … in that order, never letting the alt text
cross a line terminator.  Returns the alt-text length, the capture and the
input after the match. -/
def scanAlt : List Char → Option (Nat × List Char × List Char)
  | [] => none
  | c :: cs =>
    match parseRef (c :: cs) with
    | some (cap, rest) => some (0, cap, rest)
    | none =>
      if isLineTerm c then none
      else
        match scanAlt cs with
        | none => none
        | some (n, cap, rest) => some (n + 1, cap, rest)

/-- Try to match the whole image-reference pattern at this exact position. -/
def matchAt : List Char → Option (List Char × List Char)
  | '!' :: '[' :: rest =>
    match scanAlt rest with
    | none => none
    | some (_, cap, r) => some (cap, r)
  | _ => none

/-- Leftmost match: the characters before the match, the capture, and the
input after the match. -/
def findRef : List Char → Option (List Char × List Char × List Char)
  | [] => none
  | c :: cs =>
    match matchAt (c :: cs) with
    | some (cap, rest) => some ([], cap, rest)
    | none =>
      match findRef cs with
      | none => none
      | some (before, cap, rest) => some (c :: before, cap, rest)

/-- The `exec` loop of `extractPartsFromResult`: emit the text before each
match when nonempty, then the image capture, and after the last match the
trailing text when nonempty.  Every match consumes at least one character, so
a fuel of `length + 1` never runs out. -/
def scanParts : Nat → List Char → List ExtractedPart
  | 0, _ => []
  | fuel + 1, l =>
    match findRef l with
    | none => if l.isEmpty then [] else [.text l.asString]
    | some (before, cap, rest) =>
      (if before.isEmpty then [] else [.text before.asString]) ++
        .image cap.asString :: scanParts fuel rest

/-- Function `extractPartsFromResult` from `extractPartsFromResult.ts`. -/
def extractPartsFromResult (result : String) : List ExtractedPart :=
  scanParts (result.toList.length + 1) result.toList

/-- Whether the scanner finds any data-URI image reference in the input. -/
def hasImageRefs (s : String) : Bool :=
  (findRef s.toList).isSome

/-- Folding a whole sequence of insertions into the conversion cache. -/
def insertAll (entries : List CacheEntry) (s : CacheState) : CacheState :=
  entries.foldl (fun st e => cacheInsert e st) s

/-- Sample metadata record used to instantiate theorems at concrete inputs. -/
def sampleMeta : LocalPaperMetadata :=
  { title := "T", abstract := "A", authors := ["X"], categories := ["cs.AI"]
    primaryCategory := "cs.AI", pdfUrl := "u", doi := none, journalRef := none
    comment := none, published := "2024-01-01", updated := "2024-01-02"
    downloadedAt := 11, fileSize := 22, starred := false, archived := false
    tags := ["t"] }

/-- Sample repository state: one paper `p1` in the unread collection, with its
PDF present. -/
def sampleSt : St :=
  { unreadMeta := [("p1", sampleMeta)], readMeta := []
    unreadPdf := [("p1", 7)], readPdf := [] }

/-- State of `sampleSt` after `markPaperAsRead "p1"`. -/
def sampleStRead : St :=
  { unreadMeta := [], readMeta := [("p1", sampleMeta)]
    unreadPdf := [], readPdf := [("p1", 7)] }

/-! ## Lemmas about the association-list object model -/

theorem assocGet_assocSet_self {α : Type} (l : List (String × α)) (k : String) (v : α) :
    assocGet (assocSet l k v) k = some v := by
  induction l with
  | nil => simp [assocSet, assocGet]
  | cons p rest ih =>
    obtain ⟨k1, w⟩ := p
    by_cases h : k1 = k
    · subst h; simp [assocSet, assocGet]
    · simp [assocSet, assocGet, h, ih]

theorem assocGet_assocSet_ne {α : Type} (l : List (String × α)) (k k2 : String) (v : α)
    (h : k2 ≠ k) : assocGet (assocSet l k v) k2 = assocGet l k2 := by
  induction l with
  | nil => simp [assocSet, assocGet, Ne.symm h]
  | cons p rest ih =>
    obtain ⟨k1, w⟩ := p
    by_cases h1 : k1 = k
    · subst h1; simp [assocSet, assocGet, Ne.symm h]
    · simp [assocSet, assocGet, h1, ih]

theorem assocGet_assocDelete_self {α : Type} (l : List (String × α)) (k : String) :
    assocGet (assocDelete l k) k = none := by
  induction l with
  | nil => rfl
  | cons p rest ih =>
    obtain ⟨k1, w⟩ := p
    by_cases h : k1 = k
    · simp [assocDelete, h, ih]
    · simp [assocDelete, assocGet, h, ih]

theorem assocGet_assocDelete_ne {α : Type} (l : List (String × α)) (k k2 : String)
    (h : k2 ≠ k) : assocGet (assocDelete l k) k2 = assocGet l k2 := by
  induction l with
  | nil => rfl
  | cons p rest ih =>
    obtain ⟨k1, w⟩ := p
    by_cases h1 : k1 = k
    · subst h1; simp [assocDelete, assocGet, Ne.symm h, ih]
    · simp [assocDelete, assocGet, h1, ih]

theorem assocDelete_of_get_none {α : Type} (l : List (String × α)) (k : String)
    (h : assocGet l k = none) : assocDelete l k = l := by
  induction l with
  | nil => rfl
  | cons p rest ih =>
    obtain ⟨k1, w⟩ := p
    rw [assocGet] at h
    by_cases h1 : k1 = k
    · rw [if_pos h1] at h; exact absurd h (by simp)
    · rw [if_neg h1] at h
      simp [assocDelete, h1, ih h]

theorem assocGet_set_delete_round {α : Type} (l : List (String × α)) (k k2 : String)
    (v : α) (h : assocGet l k = some v) :
    assocGet (assocSet (assocDelete l k) k v) k2 = assocGet l k2 := by
  by_cases h2 : k2 = k
  · subst h2; rw [assocGet_assocSet_self, h]
  · rw [assocGet_assocSet_ne _ _ _ _ h2, assocGet_assocDelete_ne _ _ _ h2]

theorem assocGet_delete_set_round {α : Type} (l : List (String × α)) (k k2 : String)
    (v : α) (h : assocGet l k = none) :
    assocGet (assocDelete (assocSet l k v) k) k2 = assocGet l k2 := by
  by_cases h2 : k2 = k
  · subst h2; rw [assocGet_assocDelete_self, h]
  · rw [assocGet_assocDelete_ne _ _ _ h2, assocGet_assocSet_ne _ _ _ _ h2]

/-! ## Characterization of the repository operations -/

theorem movePdf_of_missing (src dst : PdfDir) (id : String)
    (h : assocGet src id = none) : movePdf src dst id = (src, dst) := by
  simp [movePdf, fsReadFile, h]

theorem movePdf_of_present (src dst : PdfDir) (id : String) (d : Nat)
    (h : assocGet src id = some d) :
    movePdf src dst id = (assocDelete src id, assocSet dst id d) := by
  simp [movePdf, fsReadFile, fsUnlink, h]

theorem unlinkIgnoreMissing_eq_delete (dir : PdfDir) (id : String) :
    unlinkIgnoreMissing dir id = assocDelete dir id := by
  rcases h : assocGet dir id with _ | d
  · rw [unlinkIgnoreMissing, fsUnlink, h, assocDelete_of_get_none dir id h]
  · rw [unlinkIgnoreMissing, fsUnlink, h]

theorem markPaperAsRead_of_absent (s : St) (id : String)
    (h : assocGet s.unreadMeta id = none) : markPaperAsRead id s = .ok s := by
  simp [markPaperAsRead, h]

theorem markPaperAsRead_of_present (s : St) (id : String) (m : LocalPaperMetadata)
    (h : assocGet s.unreadMeta id = some m) :
    markPaperAsRead id s = .ok
      { unreadMeta := assocDelete s.unreadMeta id
        readMeta := assocSet s.readMeta id m
        unreadPdf := (movePdf s.unreadPdf s.readPdf id).1
        readPdf := (movePdf s.unreadPdf s.readPdf id).2 } := by
  rcases hmp : movePdf s.unreadPdf s.readPdf id with ⟨u1, r1⟩
  simp [markPaperAsRead, h, hmp]

theorem markPaperAsUnread_of_absent (s : St) (id : String)
    (h : assocGet s.readMeta id = none) : markPaperAsUnread id s = .ok s := by
  simp [markPaperAsUnread, h]

theorem markPaperAsUnread_of_present (s : St) (id : String) (m : LocalPaperMetadata)
    (h : assocGet s.readMeta id = some m) :
    markPaperAsUnread id s = .ok
      { unreadMeta := assocSet s.unreadMeta id m
        readMeta := assocDelete s.readMeta id
        unreadPdf := (movePdf s.readPdf s.unreadPdf id).2
        readPdf := (movePdf s.readPdf s.unreadPdf id).1 } := by
  rcases hmp : movePdf s.readPdf s.unreadPdf id with ⟨r1, u1⟩
  simp [markPaperAsUnread, h, hmp]

theorem deleteLocalPaper_of_in_unread (s : St) (id : String) (m : LocalPaperMetadata)
    (h : assocGet s.unreadMeta id = some m) :
    deleteLocalPaper id s = .ok
      { s with unreadMeta := assocDelete s.unreadMeta id
               unreadPdf := unlinkIgnoreMissing s.unreadPdf id } := by
  simp [deleteLocalPaper, h]

theorem deleteLocalPaper_of_in_read (s : St) (id : String) (m : LocalPaperMetadata)
    (h1 : assocGet s.unreadMeta id = none) (h2 : assocGet s.readMeta id = some m) :
    deleteLocalPaper id s = .ok
      { s with readMeta := assocDelete s.readMeta id
               readPdf := unlinkIgnoreMissing s.readPdf id } := by
  simp [deleteLocalPaper, h1, h2]

theorem deleteLocalPaper_of_absent (s : St) (id : String)
    (h1 : assocGet s.unreadMeta id = none) (h2 : assocGet s.readMeta id = none) :
    deleteLocalPaper id s = .ok s := by
  simp [deleteLocalPaper, h1, h2]

theorem updatePaperMetadata_of_absent (s : St) (id : String)
    (updateFn : LocalPaperMetadata → LocalPaperMetadata)
    (h1 : assocGet s.unreadMeta id = none) (h2 : assocGet s.readMeta id = none) :
    updatePaperMetadata id updateFn s = s := by
  simp [updatePaperMetadata, h1, h2]

/-! ## Claim theorems: paper repository -/

/-- C1: if a paper identifier `p` is in at most one collection's metadata
mapping, it still is after `markPaperAsRead id` and after
`markPaperAsUnread id`; and when the operated-on identifier `id` was present
in the source collection, afterwards it is present in exactly the destination
collection's mapping (absent from the source, present — with the same
record — in the destination). -/
theorem markPaper_transition_unique_location (s s1 s2 : St) (id p : String)
    (hp : assocGet s.unreadMeta p = none ∨ assocGet s.readMeta p = none)
    (h1 : markPaperAsRead id s = .ok s1)
    (h2 : markPaperAsUnread id s = .ok s2) :
    (assocGet s1.unreadMeta p = none ∨ assocGet s1.readMeta p = none) ∧
    (assocGet s2.unreadMeta p = none ∨ assocGet s2.readMeta p = none) ∧
    (assocGet s.unreadMeta id ≠ none →
      assocGet s1.unreadMeta id = none ∧
      assocGet s1.readMeta id = assocGet s.unreadMeta id) ∧
    (assocGet s.readMeta id ≠ none →
      assocGet s2.readMeta id = none ∧
      assocGet s2.unreadMeta id = assocGet s.readMeta id) := by
  have HR : (assocGet s1.unreadMeta p = none ∨ assocGet s1.readMeta p = none) ∧
      (assocGet s.unreadMeta id ≠ none →
        assocGet s1.unreadMeta id = none ∧
        assocGet s1.readMeta id = assocGet s.unreadMeta id) := by
    rcases hcu : assocGet s.unreadMeta id with _ | m
    · rw [markPaperAsRead_of_absent s id hcu] at h1
      injection h1 with h1; subst h1
      exact ⟨hp, fun hne => absurd rfl hne⟩
    · rw [markPaperAsRead_of_present s id m hcu] at h1
      injection h1 with h1; subst h1
      dsimp only
      constructor
      · by_cases hpid : p = id
        · subst hpid; exact Or.inl (assocGet_assocDelete_self _ _)
        · rcases hp with hp | hp
          · exact Or.inl (by rw [assocGet_assocDelete_ne _ _ _ hpid, hp])
          · exact Or.inr (by rw [assocGet_assocSet_ne _ _ _ _ hpid, hp])
      · intro _
        exact ⟨assocGet_assocDelete_self _ _, assocGet_assocSet_self _ _ _⟩
  have HU : (assocGet s2.unreadMeta p = none ∨ assocGet s2.readMeta p = none) ∧
      (assocGet s.readMeta id ≠ none →
        assocGet s2.readMeta id = none ∧
        assocGet s2.unreadMeta id = assocGet s.readMeta id) := by
    rcases hcr : assocGet s.readMeta id with _ | m
    · rw [markPaperAsUnread_of_absent s id hcr] at h2
      injection h2 with h2; subst h2
      exact ⟨hp, fun hne => absurd rfl hne⟩
    · rw [markPaperAsUnread_of_present s id m hcr] at h2
      injection h2 with h2; subst h2
      dsimp only
      constructor
      · by_cases hpid : p = id
        · subst hpid; exact Or.inr (assocGet_assocDelete_self _ _)
        · rcases hp with hp | hp
          · exact Or.inl (by rw [assocGet_assocSet_ne _ _ _ _ hpid, hp])
          · exact Or.inr (by rw [assocGet_assocDelete_ne _ _ _ hpid, hp])
      · intro _
        exact ⟨assocGet_assocDelete_self _ _, assocGet_assocSet_self _ _ _⟩
  exact ⟨HR.1, HU.1, HR.2, HU.2⟩

/-- Witness for C1 at the sample state. -/
theorem markPaper_transition_unique_location_witness :
    (assocGet sampleStRead.unreadMeta "p1" = none ∨
      assocGet sampleStRead.readMeta "p1" = none) ∧
    (assocGet sampleSt.unreadMeta "p1" = none ∨
      assocGet sampleSt.readMeta "p1" = none) ∧
    (assocGet sampleSt.unreadMeta "p1" ≠ none →
      assocGet sampleStRead.unreadMeta "p1" = none ∧
      assocGet sampleStRead.readMeta "p1" = assocGet sampleSt.unreadMeta "p1") ∧
    (assocGet sampleSt.readMeta "p1" ≠ none →
      assocGet sampleSt.readMeta "p1" = none ∧
      assocGet sampleSt.unreadMeta "p1" = assocGet sampleSt.readMeta "p1") :=
  markPaper_transition_unique_location sampleSt sampleStRead sampleSt "p1" "p1"
    (Or.inr rfl) (by rfl) (by rfl)

/-- C2: after `markPaperAsRead` succeeds on a paper present in the unread
mapping, `getLocalPaper` returns the read-collection record, whose derived
file path lies under the read directory, and the id is gone from the unread
mapping. -/
theorem markPaperAsRead_get_returns_read (s s1 : St) (id : String)
    (m : LocalPaperMetadata)
    (h : assocGet s.unreadMeta id = some m)
    (h1 : markPaperAsRead id s = .ok s1) :
    getLocalPaper id s1 = some (convertMetadataToLocalPaper id m .read) ∧
    (convertMetadataToLocalPaper id m .read).filePath =
      read_paper_directory ++ "/" ++ id ++ ".pdf" ∧
    assocGet s1.unreadMeta id = none := by
  rw [markPaperAsRead_of_present s id m h] at h1
  injection h1 with h1; subst h1
  dsimp only
  refine ⟨?_, rfl, assocGet_assocDelete_self _ _⟩
  simp [getLocalPaper, assocGet_assocDelete_self, assocGet_assocSet_self]

/-- Witness for C2 at the sample state. -/
theorem markPaperAsRead_get_returns_read_witness :
    getLocalPaper "p1" sampleStRead =
      some (convertMetadataToLocalPaper "p1" sampleMeta .read) ∧
    (convertMetadataToLocalPaper "p1" sampleMeta .read).filePath =
      read_paper_directory ++ "/" ++ "p1" ++ ".pdf" ∧
    assocGet sampleStRead.unreadMeta "p1" = none :=
  markPaperAsRead_get_returns_read sampleSt sampleStRead "p1" sampleMeta rfl (by rfl)

/-- C3: `markPaperAsRead` immediately followed by `markPaperAsUnread` on an id
present in the unread mapping restores the original state: the id is back in
the unread mapping with the identical record (so `downloadedAt` and
`fileSize` in particular are unchanged), the unread mapping is pointwise
unchanged, and — whenever the id did not also sit in the read collection, as
the at-most-one-collection invariant guarantees — the read mapping and both
PDF directories are pointwise unchanged as well. -/
theorem markRead_then_markUnread_round_trip (s s1 s2 : St) (id k : String)
    (m : LocalPaperMetadata)
    (h : assocGet s.unreadMeta id = some m)
    (h1 : markPaperAsRead id s = .ok s1)
    (h2 : markPaperAsUnread id s1 = .ok s2) :
    assocGet s2.unreadMeta id = some m ∧
    assocGet s2.unreadMeta k = assocGet s.unreadMeta k ∧
    (assocGet s.readMeta id = none →
      assocGet s2.readMeta k = assocGet s.readMeta k) ∧
    (assocGet s.readPdf id = none →
      assocGet s2.unreadPdf k = assocGet s.unreadPdf k ∧
      assocGet s2.readPdf k = assocGet s.readPdf k) := by
  rw [markPaperAsRead_of_present s id m h] at h1
  injection h1 with h1; subst h1
  rw [markPaperAsUnread_of_present _ id m (assocGet_assocSet_self _ _ _)] at h2
  injection h2 with h2; subst h2
  dsimp only
  refine ⟨?_, ?_, ?_, ?_⟩
  · exact assocGet_assocSet_self _ _ _
  · exact assocGet_set_delete_round _ _ _ _ h
  · intro hrn
    exact assocGet_delete_set_round _ _ _ _ hrn
  · intro hpn
    rcases hup : assocGet s.unreadPdf id with _ | d
    · rw [movePdf_of_missing _ _ _ hup]
      dsimp only
      rw [movePdf_of_missing _ _ _ hpn]
      exact ⟨rfl, rfl⟩
    · rw [movePdf_of_present _ _ _ d hup]
      dsimp only
      rw [movePdf_of_present _ _ _ d (assocGet_assocSet_self _ _ _)]
      dsimp only
      exact ⟨assocGet_set_delete_round _ _ _ _ hup,
        assocGet_delete_set_round _ _ _ _ hpn⟩

/-- Witness for C3 at the sample state (the round trip lands back on
`sampleSt` itself). -/
theorem markRead_then_markUnread_round_trip_witness :
    assocGet sampleSt.unreadMeta "p1" = some sampleMeta ∧
    assocGet sampleSt.unreadMeta "p1" = assocGet sampleSt.unreadMeta "p1" ∧
    (assocGet sampleSt.readMeta "p1" = none →
      assocGet sampleSt.readMeta "p1" = assocGet sampleSt.readMeta "p1") ∧
    (assocGet sampleSt.readPdf "p1" = none →
      assocGet sampleSt.unreadPdf "p1" = assocGet sampleSt.unreadPdf "p1" ∧
      assocGet sampleSt.readPdf "p1" = assocGet sampleSt.readPdf "p1") :=
  markRead_then_markUnread_round_trip sampleSt sampleStRead sampleSt "p1" "p1"
    sampleMeta rfl (by rfl) (by rfl)

/-- C6: `deleteLocalPaper` is idempotent: from any state the first call
succeeds, an immediate second call succeeds as well (never an error), and
afterwards the identifier is absent from both collections' metadata
mappings. -/
theorem deleteLocalPaper_idempotent (s : St) (id : String) :
    ∃ s1 s2, deleteLocalPaper id s = .ok s1 ∧ deleteLocalPaper id s1 = .ok s2 ∧
      assocGet s2.unreadMeta id = none ∧ assocGet s2.readMeta id = none := by
  rcases hu : assocGet s.unreadMeta id with _ | m
  · rcases hr : assocGet s.readMeta id with _ | m
    · exact ⟨s, s, deleteLocalPaper_of_absent s id hu hr,
        deleteLocalPaper_of_absent s id hu hr, hu, hr⟩
    · have d1 := deleteLocalPaper_of_in_read s id m hu hr
      have h1u : assocGet ({ s with
          readMeta := assocDelete s.readMeta id,
          readPdf := unlinkIgnoreMissing s.readPdf id } : St).unreadMeta id = none := hu
      have h1r : assocGet ({ s with
          readMeta := assocDelete s.readMeta id,
          readPdf := unlinkIgnoreMissing s.readPdf id } : St).readMeta id = none :=
        assocGet_assocDelete_self _ _
      exact ⟨_, _, d1, deleteLocalPaper_of_absent _ id h1u h1r, h1u, h1r⟩
  · have d1 := deleteLocalPaper_of_in_unread s id m hu
    have h1u : assocGet ({ s with
        unreadMeta := assocDelete s.unreadMeta id,
        unreadPdf := unlinkIgnoreMissing s.unreadPdf id } : St).unreadMeta id = none :=
      assocGet_assocDelete_self _ _
    rcases hr : assocGet s.readMeta id with _ | m2
    · have h1r : assocGet ({ s with
          unreadMeta := assocDelete s.unreadMeta id,
          unreadPdf := unlinkIgnoreMissing s.unreadPdf id } : St).readMeta id = none := hr
      exact ⟨_, _, d1, deleteLocalPaper_of_absent _ id h1u h1r, h1u, h1r⟩
    · have h1r : assocGet ({ s with
          unreadMeta := assocDelete s.unreadMeta id,
          unreadPdf := unlinkIgnoreMissing s.unreadPdf id } : St).readMeta id = some m2 := hr
      exact ⟨_, _, d1, deleteLocalPaper_of_in_read _ id m2 h1u h1r, h1u,
        assocGet_assocDelete_self _ _⟩

/-- C9: every mutation keyed by an identifier absent from both collections
completes without error and leaves the state (both metadata mappings and all
PDF files) literally unchanged. -/
theorem mutations_noop_on_missing_id (s : St) (id tag : String) (b : Bool)
    (h1 : assocGet s.unreadMeta id = none) (h2 : assocGet s.readMeta id = none) :
    markPaperAsRead id s = .ok s ∧
    markPaperAsUnread id s = .ok s ∧
    deleteLocalPaper id s = .ok s ∧
    setPaperStarred id b s = s ∧
    setPaperArchived id b s = s ∧
    addPaperTag id tag s = s ∧
    removePaperTag id tag s = s := by
  refine ⟨markPaperAsRead_of_absent s id h1, markPaperAsUnread_of_absent s id h2,
    deleteLocalPaper_of_absent s id h1 h2, ?_, ?_, ?_, ?_⟩ <;>
    exact updatePaperMetadata_of_absent s id _ h1 h2

/-- Sample repository state holding no papers at all. -/
def emptySt : St :=
  { unreadMeta := [], readMeta := [], unreadPdf := [], readPdf := [] }

/-- Witness for C9 at the empty state. -/
theorem mutations_noop_on_missing_id_witness :
    markPaperAsRead "p1" emptySt = .ok emptySt ∧
    markPaperAsUnread "p1" emptySt = .ok emptySt ∧
    deleteLocalPaper "p1" emptySt = .ok emptySt ∧
    setPaperStarred "p1" true emptySt = emptySt ∧
    setPaperArchived "p1" true emptySt = emptySt ∧
    addPaperTag "p1" "t" emptySt = emptySt ∧
    removePaperTag "p1" "t" emptySt = emptySt :=
  mutations_noop_on_missing_id emptySt "p1" "t" true rfl rfl

/-- C10: on an id present in the unread mapping whose source PDF is missing
from disk, `markPaperAsRead` still completes without error, the ENOENT from
reading the source PDF is swallowed, the metadata entry moves from unread to
read, and neither PDF directory changes (in particular no destination PDF is
written, so with no pre-existing destination PDF no PDF exists for the id in
either directory). -/
theorem markPaperAsRead_missing_pdf_still_transitions (s : St) (id : String)
    (m : LocalPaperMetadata)
    (h : assocGet s.unreadMeta id = some m)
    (hu : assocGet s.unreadPdf id = none)
    (hr : assocGet s.readPdf id = none) :
    markPaperAsRead id s = .ok
      { unreadMeta := assocDelete s.unreadMeta id
        readMeta := assocSet s.readMeta id m
        unreadPdf := s.unreadPdf
        readPdf := s.readPdf } ∧
    assocGet (assocDelete s.unreadMeta id) id = none ∧
    assocGet (assocSet s.readMeta id m) id = some m ∧
    assocGet s.unreadPdf id = none ∧ assocGet s.readPdf id = none := by
  refine ⟨?_, assocGet_assocDelete_self _ _, assocGet_assocSet_self _ _ _, hu, hr⟩
  rw [markPaperAsRead_of_present s id m h, movePdf_of_missing _ _ _ hu]

/-- Sample repository state: paper `p1` registered as unread but with its PDF
file missing from disk. -/
def samplePdflessSt : St :=
  { unreadMeta := [("p1", sampleMeta)], readMeta := [], unreadPdf := [], readPdf := [] }

/-- Witness for C10 at the PDF-less sample state. -/
theorem markPaperAsRead_missing_pdf_still_transitions_witness :
    markPaperAsRead "p1" samplePdflessSt = .ok
      { unreadMeta := assocDelete samplePdflessSt.unreadMeta "p1"
        readMeta := assocSet samplePdflessSt.readMeta "p1" sampleMeta
        unreadPdf := samplePdflessSt.unreadPdf
        readPdf := samplePdflessSt.readPdf } ∧
    assocGet (assocDelete samplePdflessSt.unreadMeta "p1") "p1" = none ∧
    assocGet (assocSet samplePdflessSt.readMeta "p1" sampleMeta) "p1" =
      some sampleMeta ∧
    assocGet samplePdflessSt.unreadPdf "p1" = none ∧
    assocGet samplePdflessSt.readPdf "p1" = none :=
  markPaperAsRead_missing_pdf_still_transitions samplePdflessSt "p1" sampleMeta
    rfl rfl rfl

/-! ## Claim theorems: metadata store read path -/

/-- C8: reading a collection's metadata never propagates an error: whenever
the raw file is anything other than valid JSON (missing, unreadable, or
syntactically invalid), the internal read/parse step genuinely fails, the
failure is swallowed, and the caller receives the empty mapping. -/
theorem readMetadataFile_fails_open (raw : RawMetaFile)
    (h : ∀ mapping, raw ≠ RawMetaFile.valid mapping) :
    readMetadataFile raw = [] ∧
    (readAndParseMetadata raw = .error .readFailed ∨
      readAndParseMetadata raw = .error .parseFailed) := by
  cases raw with
  | missing => exact ⟨rfl, Or.inl rfl⟩
  | unreadable => exact ⟨rfl, Or.inl rfl⟩
  | invalidJson => exact ⟨rfl, Or.inr rfl⟩
  | valid mapping => exact absurd rfl (h mapping)

/-- Witness for C8 at an invalid-JSON metadata file. -/
theorem readMetadataFile_fails_open_witness :
    readMetadataFile RawMetaFile.invalidJson = [] ∧
    (readAndParseMetadata RawMetaFile.invalidJson = .error .readFailed ∨
      readAndParseMetadata RawMetaFile.invalidJson = .error .parseFailed) :=
  readMetadataFile_fails_open RawMetaFile.invalidJson
    (fun _ h => RawMetaFile.noConfusion h)

/-! ## Lemmas about the conversion cache -/

theorem cacheInsert_length_le (entry : CacheEntry) (s : CacheState)
    (h : s.cache.length ≤ MAX_CACHE_SIZE) :
    (cacheInsert entry s).cache.length ≤ MAX_CACHE_SIZE := by
  simp only [cacheInsert]
  split
  · simp only [List.length_dropLast, List.length_cons]
    omega
  · rename_i h1
    simp only [List.length_cons] at h1 ⊢
    omega

theorem insertAll_length_le (entries : List CacheEntry) (s : CacheState)
    (h : s.cache.length ≤ MAX_CACHE_SIZE) :
    (insertAll entries s).cache.length ≤ MAX_CACHE_SIZE := by
  induction entries generalizing s with
  | nil => exact h
  | cons e rest ih => exact ih _ (cacheInsert_length_le e s h)

theorem not_mem_filter_ne (l : List String) (a : String) :
    a ∉ l.filter (fun q => q != a) := by
  intro hmem
  have hx := List.mem_filter.mp hmem
  simp at hx

/-! ## Claim theorems: conversion cache -/

/-- C4: after any sequence of insertions from a within-capacity state the
cache holds at most `MAX_CACHE_SIZE` (5) entries; when an insertion overflows
a full cache the evicted entry is exactly the one at the back of the recency
list (irrespective of any timestamp values), the new cache is the new entry
followed by all but that back entry, the result is persisted, and the evicted
entry's output artifact no longer exists on disk. -/
theorem conversionCache_bounded_lru_eviction (entries : List CacheEntry)
    (s s5 : CacheState) (entry ev : CacheEntry)
    (hb : s.cache.length ≤ MAX_CACHE_SIZE)
    (h5 : s5.cache.length = MAX_CACHE_SIZE)
    (hlast : s5.cache.getLast? = some ev) :
    (insertAll entries s).cache.length ≤ MAX_CACHE_SIZE ∧
    (cacheInsert entry s5).cache = entry :: s5.cache.dropLast ∧
    (cacheInsert entry s5).cache.length = MAX_CACHE_SIZE ∧
    (cacheInsert entry s5).persisted = (cacheInsert entry s5).cache ∧
    ev.outputPath ∉ (cacheInsert entry s5).disk := by
  have hne : s5.cache ≠ [] := by
    intro hnil; rw [hnil] at h5; simp [MAX_CACHE_SIZE] at h5
  have hev : (entry :: s5.cache).getLast (List.cons_ne_nil entry s5.cache) = ev := by
    rw [List.getLast_cons hne]
    have hq := List.getLast?_eq_getLast s5.cache hne
    rw [hlast] at hq
    exact (Option.some.inj hq).symm
  have h5n : s5.cache.length = 5 := h5
  have hlt : MAX_CACHE_SIZE < (entry :: s5.cache).length := by
    simp only [List.length_cons, h5n, MAX_CACHE_SIZE]
    omega
  refine ⟨insertAll_length_le entries s hb, ?_, ?_, ?_, ?_⟩
  · simp only [cacheInsert, if_pos hlt]
    exact List.dropLast_cons_of_ne_nil hne
  · simp only [cacheInsert, if_pos hlt]
    rw [List.dropLast_cons_of_ne_nil hne]
    simp only [List.length_cons, List.length_dropLast, h5n, MAX_CACHE_SIZE]
  · simp only [cacheInsert, if_pos hlt]
  · simp only [cacheInsert, if_pos hlt, hev]
    by_cases hd : ev.outputPath ∈ s5.disk
    · rw [if_pos (by simpa using hd)]
      exact not_mem_filter_ne _ _
    · rw [if_neg (by simpa using hd)]
      exact hd

/-- Sample full cache (5 entries) and a fresh entry, for instantiating the
cache theorems. -/
def sampleCacheEntry (n : Nat) : CacheEntry :=
  { pdfPath := "p" ++ toString n ++ ".pdf"
    outputPath := "o" ++ toString n ++ ".md"
    timestamp := n }

/-- Sample cache state at capacity, with every output artifact on disk. -/
def sampleFullCache : CacheState :=
  { cache := [sampleCacheEntry 1, sampleCacheEntry 2, sampleCacheEntry 3,
      sampleCacheEntry 4, sampleCacheEntry 5]
    persisted := [sampleCacheEntry 1, sampleCacheEntry 2, sampleCacheEntry 3,
      sampleCacheEntry 4, sampleCacheEntry 5]
    disk := ["o1.md", "o2.md", "o3.md", "o4.md", "o5.md"] }

/-- Witness for C4: inserting a sixth entry into the full sample cache. -/
theorem conversionCache_bounded_lru_eviction_witness :
    (insertAll [sampleCacheEntry 6] sampleFullCache).cache.length ≤ MAX_CACHE_SIZE ∧
    (cacheInsert (sampleCacheEntry 6) sampleFullCache).cache =
      sampleCacheEntry 6 :: sampleFullCache.cache.dropLast ∧
    (cacheInsert (sampleCacheEntry 6) sampleFullCache).cache.length = MAX_CACHE_SIZE ∧
    (cacheInsert (sampleCacheEntry 6) sampleFullCache).persisted =
      (cacheInsert (sampleCacheEntry 6) sampleFullCache).cache ∧
    (sampleCacheEntry 5).outputPath ∉
      (cacheInsert (sampleCacheEntry 6) sampleFullCache).disk :=
  conversionCache_bounded_lru_eviction [sampleCacheEntry 6] sampleFullCache
    sampleFullCache (sampleCacheEntry 6) (sampleCacheEntry 5)
    (by decide) (by decide) (by decide)

/-- C7: when the first cache entry matching a source path has an output
artifact that no longer exists on disk, looking the path up yields a miss,
the stale entry is dropped from the in-memory list, the pruned list is
persisted to the index file, and — the entry being the only match — a
subsequent lookup of the same path is again a miss and changes nothing. -/
theorem cacheLookup_stale_entry_purged (now now2 : Nat) (p : String)
    (s : CacheState) (bef aft : List CacheEntry) (e : CacheEntry)
    (hfind : findSplit p s.cache = some (bef, e, aft))
    (hgone : s.disk.contains e.outputPath = false)
    (huniq : findSplit p (bef ++ aft) = none) :
    cacheLookup now p s =
      (.miss, { s with cache := bef ++ aft, persisted := bef ++ aft }) ∧
    cacheLookup now2 p { s with cache := bef ++ aft, persisted := bef ++ aft } =
      (.miss, { s with cache := bef ++ aft, persisted := bef ++ aft }) := by
  have hgone1 : e.outputPath ∉ s.disk := by simpa using hgone
  constructor
  · simp [cacheLookup, hfind, hgone1]
  · simp [cacheLookup, huniq]

/-- Sample cache state holding a single stale entry (its output artifact is
absent from disk). -/
def sampleStaleCache : CacheState :=
  { cache := [{ pdfPath := "a.pdf", outputPath := "gone.md", timestamp := 3 }]
    persisted := [{ pdfPath := "a.pdf", outputPath := "gone.md", timestamp := 3 }]
    disk := [] }

/-- Witness for C7 at the stale sample cache. -/
theorem cacheLookup_stale_entry_purged_witness :
    cacheLookup 10 "a.pdf" sampleStaleCache =
      (.miss, { sampleStaleCache with cache := [] ++ [], persisted := [] ++ [] }) ∧
    cacheLookup 11 "a.pdf"
        { sampleStaleCache with cache := [] ++ [], persisted := [] ++ [] } =
      (.miss, { sampleStaleCache with cache := [] ++ [], persisted := [] ++ [] }) :=
  cacheLookup_stale_entry_purged 10 11 "a.pdf" sampleStaleCache [] []
    { pdfPath := "a.pdf", outputPath := "gone.md", timestamp := 3 }
    (by decide) (by decide) (by decide)

/-! ## Lemmas about the image-reference scanner -/

theorem parseRef_of_head_ne (c : Char) (l : List Char) (hc : c ≠ ']') :
    parseRef (c :: l) = none := by
  rw [parseRef.eq_def]
  split <;> simp_all

theorem stripLit_append (lit rest : List Char) :
    stripLit lit (lit ++ rest) = some rest := by
  induction lit with
  | nil => rfl
  | cons c cs ih => simp [stripLit, ih]

theorem splitBody_no_paren (body rest : List Char) (hp : ')' ∉ body) :
    splitBody (body ++ ')' :: rest) = (body, ')' :: rest) := by
  induction body with
  | nil => simp [splitBody]
  | cons c cs ih =>
    have hc : c ≠ ')' := by
      intro h; subst h; exact hp (List.mem_cons_self _ _)
    have hcs : ')' ∉ cs := fun h => hp (List.mem_cons_of_mem _ h)
    simp [splitBody, hc, ih hcs]

theorem parseRef_exact (body tail : List Char) (hb : body ≠ []) (hp : ')' ∉ body) :
    parseRef (']' :: '(' :: (dataUriStart ++ (body ++ ')' :: tail))) =
      some (dataUriStart ++ body, tail) := by
  rcases body with _ | ⟨b, bs⟩
  · exact absurd rfl hb
  · have hsb : splitBody (b :: (bs ++ ')' :: tail)) = (b :: bs, ')' :: tail) :=
      splitBody_no_paren (b :: bs) tail hp
    simp [parseRef, stripLit_append, hsb]

theorem scanAlt_through_alt (alt body tail : List Char)
    (ha1 : ']' ∉ alt) (ha2 : ∀ c ∈ alt, isLineTerm c = false)
    (hb : body ≠ []) (hp : ')' ∉ body) :
    scanAlt (alt ++ (']' :: '(' :: (dataUriStart ++ (body ++ ')' :: tail)))) =
      some (alt.length, dataUriStart ++ body, tail) := by
  induction alt with
  | nil => simp [scanAlt, parseRef_exact body tail hb hp]
  | cons c cs ih =>
    have hc : c ≠ ']' := by
      intro h; subst h; exact ha1 (List.mem_cons_self _ _)
    have hl : isLineTerm c = false := ha2 c (List.mem_cons_self _ _)
    have ha1x : ']' ∉ cs := fun h => ha1 (List.mem_cons_of_mem _ h)
    have ha2x : ∀ x ∈ cs, isLineTerm x = false :=
      fun x hx => ha2 x (List.mem_cons_of_mem _ hx)
    have hpr := parseRef_of_head_ne c
      (cs ++ (']' :: '(' :: (dataUriStart ++ (body ++ ')' :: tail)))) hc
    simp [scanAlt, List.cons_append, hpr, hl, ih ha1x ha2x]

theorem matchAt_exact (alt body tail : List Char)
    (ha1 : ']' ∉ alt) (ha2 : ∀ c ∈ alt, isLineTerm c = false)
    (hb : body ≠ []) (hp : ')' ∉ body) :
    matchAt ('!' :: '[' :: (alt ++ (']' :: '(' :: (dataUriStart ++ (body ++ ')' :: tail))))) =
      some (dataUriStart ++ body, tail) := by
  simp [matchAt, scanAlt_through_alt alt body tail ha1 ha2 hb hp]

theorem findRef_exact (alt body tail : List Char)
    (ha1 : ']' ∉ alt) (ha2 : ∀ c ∈ alt, isLineTerm c = false)
    (hb : body ≠ []) (hp : ')' ∉ body) :
    findRef ('!' :: '[' :: (alt ++ (']' :: '(' :: (dataUriStart ++ (body ++ ')' :: tail))))) =
      some ([], dataUriStart ++ body, tail) := by
  simp [findRef, matchAt_exact alt body tail ha1 ha2 hb hp]

theorem scanParts_nil (fuel : Nat) : scanParts fuel [] = [] := by
  cases fuel <;> rfl

theorem extractParts_of_no_refs (s : String) (h : hasImageRefs s = false)
    (hne : s ≠ "") : extractPartsFromResult s = [ExtractedPart.text s] := by
  have hfind : findRef s.toList = none := by
    rcases hf : findRef s.toList with _ | v
    · rfl
    · rw [hasImageRefs, hf] at h
      simp at h
  have hl : s.toList ≠ [] := by
    intro hh
    exact hne (String.ext (by simpa using hh))
  unfold extractPartsFromResult
  simp only [scanParts, hfind]
  have hl2 : s.toList.isEmpty = false := by
    simpa [List.isEmpty_iff] using hl
  simp only [hl2, Bool.false_eq_true, if_false]
  rfl

/-! ## Claim theorems: part extraction -/

/-- C5 counterexample: the empty string contains no data-URI image reference,
yet `extractPartsFromResult` returns no segments at all on it — not "exactly
one text segment whose content equals the whole input" as claimed.  (The
`exec` loop emits only nonempty text segments, so the empty input yields the
empty segment list.) -/
theorem extractParts_empty_input_counterexample :
    hasImageRefs "" = false ∧
    extractPartsFromResult "" = [] ∧
    extractPartsFromResult "" ≠ [ExtractedPart.text ""] := by
  refine ⟨rfl, rfl, ?_⟩
  decide

/-- C5, amended to nonempty inputs: on a nonempty input with no data-URI
image references the extractor returns exactly one text segment equal to the
whole input; on the spec's example string it returns exactly the three listed
segments; and on an input that is a single image reference with no
surrounding text it returns exactly one image segment and no (in particular
no empty) text segments. -/
theorem extractPartsFromResult_amended (s : String) (alt body : List Char)
    (h1 : hasImageRefs s = false) (h2 : s ≠ "")
    (h3 : ']' ∉ alt) (h4 : ∀ c ∈ alt, isLineTerm c = false)
    (h5 : body ≠ []) (h6 : ')' ∉ body) :
    extractPartsFromResult s = [ExtractedPart.text s] ∧
    extractPartsFromResult "A ![x](data:image/png;base64,Zm9v) B" =
      [ExtractedPart.text "A ", ExtractedPart.image "data:image/png;base64,Zm9v",
        ExtractedPart.text " B"] ∧
    extractPartsFromResult
        (('!' :: '[' :: (alt ++ (']' :: '(' :: (dataUriStart ++ (body ++ [')']))))).asString) =
      [ExtractedPart.image ((dataUriStart ++ body).asString)] := by
  refine ⟨extractParts_of_no_refs s h1 h2, by decide, ?_⟩
  have hfr := findRef_exact alt body [] h3 h4 h5 h6
  unfold extractPartsFromResult
  show scanParts
      (('!' :: '[' :: (alt ++ (']' :: '(' :: (dataUriStart ++ (body ++ [')']))))).length + 1)
      ('!' :: '[' :: (alt ++ (']' :: '(' :: (dataUriStart ++ (body ++ [')']))))) = _
  simp only [scanParts, hfr]
  simp [scanParts_nil, findRef]

/-- Witness for the amended C5 at concrete inputs. -/
theorem extractPartsFromResult_amended_witness :
    extractPartsFromResult "hello" = [ExtractedPart.text "hello"] ∧
    extractPartsFromResult "A ![x](data:image/png;base64,Zm9v) B" =
      [ExtractedPart.text "A ", ExtractedPart.image "data:image/png;base64,Zm9v",
        ExtractedPart.text " B"] ∧
    extractPartsFromResult
        (('!' :: '[' :: (['x'] ++ (']' :: '(' ::
          (dataUriStart ++ ("png".toList ++ [')']))))).asString) =
      [ExtractedPart.image ((dataUriStart ++ "png".toList).asString)] :=
  extractPartsFromResult_amended "hello" ['x'] "png".toList
    (by decide) (by decide) (by decide) (by decide) (by decide) (by decide)

end ArxivReader


